import Mathlib

/-!
Shallow embedding of the vimgo editor core (Go, package main):
the key decoder `readKeyBlocking`, the geometry resolver `getTerminalSize`,
the repaint composer `refreshTerminal`/`drawRows`, the cursor updater
`editorMoveCursor`, and the control flow of `main` (defers, fatal exits,
render loop).  Bytes are modelled as `Nat` (Go `byte` values 0..255 appear
only as literals), runes as `Nat` code points, Go `int` as `Int`, and the
blocking byte source as a finite `List Nat` that ends when the list does
(a read on the empty list is the `io.EOF` / read-error case).
-/

namespace VimGo

/-- KeyCode represents special non-printable keys (Go `type KeyCode int`). -/
inductive KeyCode where
  | KeyUnknown
  | KeyArrowUp
  | KeyArrowDown
  | KeyArrowLeft
  | KeyArrowRight
  | KeyHome
  | KeyEnd
  | KeyPageUp
  | KeyPageDown
  | KeyDelete
  | KeyEnter
  | KeyCtrl
  | KeyEsc
  | KeyRune
deriving DecidableEq, Repr

/-- KeyEvent is the parsed result of a keypress (Go `struct KeyEvent`).
The defaults are Go's zero value `var ev KeyEvent`. -/
structure KeyEvent where
  keyCode : KeyCode := .KeyUnknown
  rune : Nat := 0
  ctrl : Bool := false
deriving DecidableEq, Repr

/-- The event value returned on the escape-sequence paths that fall through:
`ev` after `ev.KeyCode = KeyEsc` with rune and ctrl still at their zero values. -/
def escEvent : KeyEvent := { keyCode := .KeyEsc }

/-- Go `switch string(num)` inside the digit-accumulation loop of
`readKeyBlocking`: `"1","7"` Home, `"4","8"` End, `"3"` Delete,
`"5"` PageUp, `"6"` PageDown, default keeps the KeyEsc already set. -/
def interpretCsiNumber (num : List Nat) : KeyEvent :=
  if num = [49] ∨ num = [55] then { keyCode := .KeyHome }
  else if num = [52] ∨ num = [56] then { keyCode := .KeyEnd }
  else if num = [51] then { keyCode := .KeyDelete }
  else if num = [53] then { keyCode := .KeyPageUp }
  else if num = [54] then { keyCode := .KeyPageDown }
  else escEvent

/-- Go `for { c, err := ReadByte; if err return ev; if c == '~' { switch string(num) ... }; num = append(num, c) }`:
the accumulation loop after a digit third byte of a CSI sequence.  A read
failure (empty stream) returns the KeyEsc event already in `ev`. -/
def readNumTilde (num : List Nat) : List Nat → KeyEvent × List Nat
  | [] => (escEvent, [])
  | c :: rest =>
    if c = 126 then (interpretCsiNumber num, rest)
    else readNumTilde (num ++ [c]) rest

/-- Go `readKeyBlocking(inputReader *bufio.Reader) (KeyEvent, error)`:
reads one or more bytes from the raw-mode byte stream and decodes one
KeyEvent, returning the undecoded remainder of the stream.  `none` is the
initial `ReadByte` failing (stream already ended); every later read
failure inside an escape sequence returns the KeyEsc event instead. -/
def readKeyBlocking : List Nat → Option (KeyEvent × List Nat)
  | [] => none
  | b :: rest =>
    if 1 ≤ b ∧ b ≤ 26 then
      if b = 13 then some ({ keyCode := .KeyEnter, rune := 13, ctrl := true }, rest)
      else some ({ keyCode := .KeyRune, rune := 96 + b, ctrl := true }, rest)
    else if 32 ≤ b ∧ b ≤ 126 then
      if b = 13 ∨ b = 10 then some ({ keyCode := .KeyEnter, rune := 13 }, rest)
      else some ({ keyCode := .KeyRune, rune := b }, rest)
    else if b = 27 then
      match rest with
      | [] => some (escEvent, [])
      | b2 :: rest2 =>
        if b2 = 91 then
          match rest2 with
          | [] => some (escEvent, [])
          | b3 :: rest3 =>
            if b3 = 65 then some ({ keyCode := .KeyArrowUp }, rest3)
            else if b3 = 66 then some ({ keyCode := .KeyArrowDown }, rest3)
            else if b3 = 67 then some ({ keyCode := .KeyArrowRight }, rest3)
            else if b3 = 68 then some ({ keyCode := .KeyArrowLeft }, rest3)
            else if b3 = 72 then some ({ keyCode := .KeyHome }, rest3)
            else if b3 = 70 then some ({ keyCode := .KeyEnd }, rest3)
            else if 48 ≤ b3 ∧ b3 ≤ 57 then some (readNumTilde [b3] rest3)
            else some (escEvent, rest3)
        else if b2 = 79 then
          match rest2 with
          | [] => some (escEvent, [])
          | b3 :: rest3 =>
            if b3 = 72 then some ({ keyCode := .KeyHome }, rest3)
            else if b3 = 70 then some ({ keyCode := .KeyEnd }, rest3)
            else some (escEvent, rest3)
        else some (escEvent, rest2)
    else some ({ keyCode := .KeyUnknown }, rest)

/-- CursorPosition: the process-wide mutable pair `cursorIndexX, cursorIndexY int`,
made explicit state (Go `int` modelled as `Int`). -/
structure CursorPosition where
  x : Int
  y : Int
deriving DecidableEq, Repr

/-- Go `editorMoveCursor(ev KeyEvent, terminalColumns, terminalRows int)`:
first a `switch ev.Rune` over the vim movement letters h/l/k/j (104/108/107/106),
then a `switch ev.KeyCode` over PageUp/PageDown/Home/End absolute jumps. -/
def editorMoveCursor (ev : KeyEvent) (terminalColumns terminalRows : Int)
    (c : CursorPosition) : CursorPosition :=
  let c1 :=
    if ev.rune = 104 then (if c.x > 0 then { c with x := c.x - 1 } else c)
    else if ev.rune = 108 then
      (if c.x < terminalColumns - 1 then { c with x := c.x + 1 } else c)
    else if ev.rune = 107 then (if c.y > 0 then { c with y := c.y - 1 } else c)
    else if ev.rune = 106 then
      (if c.y < terminalRows - 1 then { c with y := c.y + 1 } else c)
    else c
  match ev.keyCode with
  | .KeyPageUp => { c1 with y := 0 }
  | .KeyPageDown => if terminalRows > 0 then { c1 with y := terminalRows - 1 } else c1
  | .KeyHome => { c1 with x := 0 }
  | .KeyEnd => if terminalColumns > 0 then { c1 with x := terminalColumns - 1 } else c1
  | _ => c1

/-- Go `bytes.IndexByte(buf, target)`: index of the first occurrence, `-1` if absent. -/
def indexByte (buf : List Nat) (target : Nat) : Int :=
  match buf with
  | [] => -1
  | b :: rest =>
    if b = target then 0
    else
      let r := indexByte rest target
      if r < 0 then -1 else r + 1

/-- Go slice `buf[lo:hi]` for `0 ≤ lo ≤ hi ≤ len buf` (the only use is guarded
by `esc >= 0 && rowsAndCols > esc`). -/
def sliceList (buf : List Nat) (lo hi : Int) : List Nat :=
  (buf.take hi.toNat).drop lo.toNat

/-- Decides the ASCII digit range `'0'..'9'` (48..57). -/
def isDigitByte (b : Nat) : Bool :=
  decide (48 ≤ b ∧ b ≤ 57)

/-- Longest digit prefix and the remainder, the digit-grabbing step of a
`%d` conversion. -/
def takeDigits : List Nat → List Nat × List Nat
  | [] => ([], [])
  | b :: rest =>
    if isDigitByte b then
      let p := takeDigits rest
      (b :: p.1, p.2)
    else ([], b :: rest)

/-- Value of an ASCII digit string, most significant digit first. -/
def digitsToNat (ds : List Nat) : Nat :=
  ds.foldl (fun acc d => acc * 10 + (d - 48)) 0

/-- One `%d` conversion of `fmt.Sscanf` on a byte slice without interior
whitespace (the geometry reply slice between `[` and `R`): an optional
sign followed by at least one digit. -/
def scanInt (s : List Nat) : Option (Int × List Nat) :=
  match s with
  | [] => none
  | b :: rest =>
    if b = 45 then
      match takeDigits rest with
      | ([], _) => none
      | (ds, r) => some (-(digitsToNat ds : Int), r)
    else if b = 43 then
      match takeDigits rest with
      | ([], _) => none
      | (ds, r) => some ((digitsToNat ds : Int), r)
    else
      match takeDigits s with
      | ([], _) => none
      | (ds, r) => some ((digitsToNat ds : Int), r)

/-- Go `fmt.Sscanf(slice, "%d;%d", &rows, &cols)` on the reply slice:
a number, a literal `;`, a number; `some (rows, cols)` on success. -/
def sscanfTwoInts (s : List Nat) : Option (Int × Int) :=
  match scanInt s with
  | none => none
  | some (first, r1) =>
    match r1 with
    | 59 :: r2 =>
      match scanInt r2 with
      | none => none
      | some (second, _) => some (first, second)
    | _ => none

/-- Environment of one `getTerminalSize` call: `directSize` is `term.GetSize`
(`some (columns, rows)` when its error is nil), and `probeResponse` is the
bytes the bounded 100 ms `os.Stdin.Read` returned (`[]` when it timed out).
The probe's own writes to stdout (cursor save, off-screen move, position
request, cursor restore) do not affect the returned geometry and are not
part of this value-level model. -/
structure GeometryEnv where
  directSize : Option (Int × Int)
  probeResponse : List Nat
deriving DecidableEq, Repr

def defaultRows : Int := 25

def defaultCols : Int := 80

/-- Fallback half of Go `getTerminalSize`: parse the cursor-position reply
`ESC [ rows ; cols R` out of the probe buffer; on a successful parse with
both values positive return `(cols, rows, false)`; otherwise the final
`return defaultRows, defaultCols, fmt.Errorf(...)` (note: `defaultRows` is
returned in the `columns` slot and `defaultCols` in the `rows` slot, exactly
as the source writes it).  The third component models `err != nil`. -/
def getTerminalSizeFallback (buf : List Nat) : Int × Int × Bool :=
  if buf ≠ [] then
    let esc := indexByte buf 91
    let rowsAndCols := indexByte buf 82
    if 0 ≤ esc ∧ esc < rowsAndCols then
      match sscanfTwoInts (sliceList buf (esc + 1) rowsAndCols) with
      | some (rows, cols) =>
        if cols > 0 ∧ rows > 0 then (cols, rows, false)
        else (defaultRows, defaultCols, true)
      | none => (defaultRows, defaultCols, true)
    else (defaultRows, defaultCols, true)
  else (defaultRows, defaultCols, true)

/-- Go `getTerminalSize(fd int) (columns, rows int, err error)`: accept the
direct `term.GetSize` result only when its error is nil and both values are
strictly positive, otherwise run the probe fallback. -/
def getTerminalSize (env : GeometryEnv) : Int × Int × Bool :=
  match env.directSize with
  | some (columns, rows) =>
    if columns > 0 ∧ rows > 0 then (columns, rows, false)
    else getTerminalSizeFallback env.probeResponse
  | none => getTerminalSizeFallback env.probeResponse

def editorVersion : String := "0.1"

def ansiCursorHide : String := "\x1b[?25l"

def ansiCursorPositionMoveToOffScreen : String := "\x1b[999;999H"

def ansiCursorPositionRequest : String := "\x1b[6n"

def ansiCursorPositionRestore : String := "\x1b8"

def ansiCursorPositionSave : String := "\x1b7"

def ansiCursorPositionToHome : String := "\x1b[H"

def ansiCursorShow : String := "\x1b[?25h"

def ansiLineClear : String := "\x1b[K"

def ansiScreenAltOff : String := "\x1b[?1049l"

def ansiScreenAltOn : String := "\x1b[?1049h"

def ansiScreenClear : String := "\x1b[2J"

def ansiScrollbackClear : String := "\x1b[3J"

/-- Go `fmt.Sprintf(ansiCursorPositionMove, row, col)` with format `ESC[%d;%dH`. -/
def ansiCursorPositionMove (row col : Int) : String :=
  "\x1b[" ++ toString row ++ ";" ++ toString col ++ "H"

/-- Contents of screen row `i` as `drawRows` writes them: the line-clear code,
then either the welcome banner / a `~` filler (empty buffer) or the content
line truncated to the column width (`~` beyond the content).  Go byte
lengths and byte slicing coincide with character counts here because the
banner and the loaded lines are 7-bit ASCII in every claim we state. -/
def drawRow (editorLines : List String) (terminalColumns terminalRows : Int)
    (i : Nat) : String :=
  ansiLineClear ++
    (if editorLines.length = 0 then
      (if (i : Int) = terminalRows / 3 then
        let welcome := "VimGo -- version " ++ editorVersion
        let welcomeText :=
          if (welcome.length : Int) > terminalColumns then
            welcome.take terminalColumns.toNat
          else welcome
        let padding := (terminalColumns - (welcome.length : Int)) / 2
        "~" ++
          (if padding > 0 then String.mk (List.replicate padding.toNat ' ') else "") ++
          welcomeText
      else "~")
    else
      (if i < editorLines.length then
        let line := editorLines.getD i ""
        if (line.length : Int) > terminalColumns then line.take terminalColumns.toNat
        else line
      else "~"))

/-- Go `drawRows(buf *bytes.Buffer, terminalColumns, terminalRows int)`:
the row loop `for i := 0; i < terminalRows; i++`, with `\r\n` after every
row but the last. -/
def drawRows (editorLines : List String) (terminalColumns terminalRows : Int) : String :=
  String.join ((List.range terminalRows.toNat).map fun i =>
    drawRow editorLines terminalColumns terminalRows i ++
      (if (i : Int) < terminalRows - 1 then "\r\n" else ""))

/-- The frame buffer `refreshTerminal` composes, one `buf.WriteString` per
line of the source: cursor hide, scrollback clear, cursor to home, the row
pass, the cursor reposition at the one-based current cursor position, and
cursor show. -/
def refreshBuffer (editorLines : List String) (cursor : CursorPosition)
    (columns rows : Int) : String :=
  let buf := ansiCursorHide
  let buf := buf ++ ansiScrollbackClear
  let buf := buf ++ ansiCursorPositionToHome
  let buf := buf ++ drawRows editorLines columns rows
  let buf := buf ++ ansiCursorPositionMove (cursor.y + 1) (cursor.x + 1)
  let buf := buf ++ ansiCursorShow
  buf

/-- One `os.Stdout.Write` call and the bytes it was handed. -/
structure WriteCall where
  data : String
deriving DecidableEq, Repr

/-- Go `refreshTerminal(columns, rows int) error`: the whole frame goes out
in a single `os.Stdout.Write(buf.Bytes())`. -/
def refreshTerminal (editorLines : List String) (cursor : CursorPosition)
    (columns rows : Int) : List WriteCall :=
  [⟨refreshBuffer editorLines cursor columns rows⟩]

/-- Modelled from the spec's words, for the refinement comparison in C9 only
(not a translation of the source): the same frame buffer but with the
cursor-reposition code "reflecting current CursorPosition (clamped to
current geometry)", i.e. the position clamped into
`[0, columns-1] × [0, rows-1]` before the one-based conversion. -/
def refreshBufferClampedSpec (editorLines : List String) (cursor : CursorPosition)
    (columns rows : Int) : String :=
  let buf := ansiCursorHide
  let buf := buf ++ ansiScrollbackClear
  let buf := buf ++ ansiCursorPositionToHome
  let buf := buf ++ drawRows editorLines columns rows
  let buf := buf ++
    ansiCursorPositionMove (max 0 (min cursor.y (rows - 1)) + 1)
      (max 0 (min cursor.x (columns - 1)) + 1)
  let buf := buf ++ ansiCursorShow
  buf

/-- Observable actions of `main`, in program order.  `write` is a print or
`os.Stdout.Write` of the given bytes; `restoreTerminal` is the deferred
`term.Restore(stdin, oldState)`; `fatalExit` is `log.Fatalf`, which prints
its message and calls `os.Exit(1)` — and `os.Exit` terminates the process
without running deferred functions (Go `os`/`log` semantics), so no
deferred effect follows it; `panicked` is `panic(err)`, which unwinds
running only the defers registered so far. -/
inductive Effect where
  | write (s : String)
  | restoreTerminal
  | fatalExit
  | panicked
deriving DecidableEq, Repr

/-- The two deferred calls of `main` in the order panic/return runs them
(last registered first): `term.Restore`, then the alternate-screen-off
print. -/
def mainDefers : List Effect :=
  [.restoreTerminal, .write ansiScreenAltOff]

/-- Environment of one render-loop iteration: the geometry environment for
this frame's `getTerminalSize` call, whether the frame's single
`os.Stdout.Write` succeeded, and what the `select` on the key channel
produced (`none` models the channel closed after the reader goroutine hit
end of stream or a read error). -/
structure FrameInput where
  geometry : GeometryEnv
  refreshWriteOk : Bool
  received : Option KeyEvent
deriving DecidableEq, Repr

/-- Go quit message printed by `fmt.Println` before the quit `return`. -/
def quitMessage : String := "\nQuit (Ctrl-Q). Restoring terminal and exiting.\n"

/-- The `for` loop of `main`: per iteration resolve geometry (fatal on a
non-nil error), repaint (fatal on a write error), then block on the key
channel; a closed channel returns (running the defers), and after
`editorMoveCursor` a Ctrl-Q event prints the quit message and returns
(running the defers).  An empty frame list is a run still blocked inside
the loop, with no exit effects yet.  The geometry probe's own stdout
prints are omitted from the trace (they carry no claim-relevant data). -/
def renderLoop (editorLines : List String) (cursor : CursorPosition) :
    List FrameInput → List Effect
  | [] => []
  | f :: rest =>
    let g := getTerminalSize f.geometry
    if g.2.2 then [.fatalExit]
    else
      let buf := refreshBuffer editorLines cursor g.1 g.2.1
      if f.refreshWriteOk then
        .write buf ::
          (match f.received with
          | none => mainDefers
          | some ev =>
            let cursor2 := editorMoveCursor ev g.1 g.2.1 cursor
            if ev.ctrl ∧ ev.rune = 113 then .write quitMessage :: mainDefers
            else renderLoop editorLines cursor2 rest)
      else [.write buf, .fatalExit]

/-- Environment of one whole run of `main`: whether `term.MakeRaw` and the
two `terminalRawConfigure` calls succeeded, the optional CLI file argument
(`some ok` when `len(os.Args) > 1`, with `ok` the success of opening it),
the lines the content loader put in `editorLines`, and the per-iteration
frame inputs. -/
structure MainEnv where
  makeRawOk : Bool
  rawConfigureStdinOk : Bool
  rawConfigureStdoutOk : Bool
  fileArg : Option Bool
  editorLines : List String
  frames : List FrameInput
deriving DecidableEq, Repr

/-- Go `main()`: `term.MakeRaw` (log.Fatalf before raw mode on failure),
the two `terminalRawConfigure` calls (`panic(err)` on failure — at that
point the two `defer` statements have not executed yet, so the panic runs
no defers), the alternate-screen-on print, the deferred alternate-screen-off
and `term.Restore` registrations, the optional `openEditor` of the CLI
argument (log.Fatalf on failure), then the render loop starting at the
zero-value cursor. -/
def mainRun (env : MainEnv) : List Effect :=
  if ¬ env.makeRawOk then [.fatalExit]
  else if ¬ env.rawConfigureStdinOk then [.panicked]
  else if ¬ env.rawConfigureStdoutOk then [.panicked]
  else
    .write ansiScreenAltOn ::
      (match env.fileArg with
      | some false => [.fatalExit]
      | _ => renderLoop env.editorLines ⟨0, 0⟩ env.frames)

end VimGo

namespace VimGo

/-- C5: for every byte `b` with `1 ≤ b ≤ 26`, decoding `b` yields a
plain-character (KeyRune) event with character `'a' + (b-1) = 96 + b` and
ctrl pressed, except `b = 13`, which always yields KeyEnter — carriage
return takes precedence over the generic control-range mapping. -/
theorem readKeyBlocking_ctrl_range (b : Nat) (rest : List Nat)
    (h1 : 1 ≤ b) (h2 : b ≤ 26) :
    (b ≠ 13 →
      readKeyBlocking (b :: rest) =
        some ({ keyCode := .KeyRune, rune := 96 + b, ctrl := true }, rest)) ∧
    (b = 13 →
      readKeyBlocking (b :: rest) =
        some ({ keyCode := .KeyEnter, rune := 13, ctrl := true }, rest)) := by
  constructor
  · intro hb
    simp [readKeyBlocking, h1, h2, hb]
  · intro hb
    subst hb
    simp [readKeyBlocking]

/-- Witness for C5 at the concrete byte 17 (Ctrl-Q). -/
theorem readKeyBlocking_ctrl_range_witness :
    (1 ≤ 17 ∧ 17 ≤ 26 ∧ 17 ≠ 13) ∧
      readKeyBlocking [17] =
        some ({ keyCode := .KeyRune, rune := 96 + 17, ctrl := true }, []) :=
  ⟨by decide, (readKeyBlocking_ctrl_range 17 [] (by decide) (by decide)).1 (by decide)⟩

/-- C1 counterexample: the claim says the render loop applies a movement
delta for each of the four arrow-key events; but `editorMoveCursor`
selects movement by `ev.Rune` (h/j/k/l) and its KeyCode switch handles no
arrow code, so the decoded ArrowDown event (rune 0) leaves the cursor at
(0,0) in an 80×25 terminal instead of moving it down to row 1. -/
theorem editorMoveCursor_arrow_ignored_cex :
    readKeyBlocking [27, 91, 66] = some ({ keyCode := .KeyArrowDown }, []) ∧
    editorMoveCursor { keyCode := .KeyArrowDown } 80 25 ⟨0, 0⟩ = ⟨0, 0⟩ ∧
    (⟨0, 0⟩ : CursorPosition) ≠ ⟨0, 1⟩ := by decide

/-- C1 amended: the four arrow-key events apply no movement delta at all
(they leave the cursor unchanged; movement deltas are keyed on the h/j/k/l
character field instead), while the absolute jumps hold as claimed: Home
sets column 0, End the last column, PageUp row 0, PageDown the last row,
for any positive geometry; in particular ArrowRight at column
`columns - 1` leaves the cursor at `columns - 1`, with no wraparound. -/
theorem editorMoveCursor_jump_policy (cols rows : Int) (c : CursorPosition)
    (hc : 0 < cols) (hr : 0 < rows) :
    (∀ k, (k = KeyCode.KeyArrowUp ∨ k = KeyCode.KeyArrowDown ∨
        k = KeyCode.KeyArrowLeft ∨ k = KeyCode.KeyArrowRight) →
      editorMoveCursor { keyCode := k } cols rows c = c) ∧
    editorMoveCursor { keyCode := .KeyHome } cols rows c = { c with x := 0 } ∧
    editorMoveCursor { keyCode := .KeyEnd } cols rows c = { c with x := cols - 1 } ∧
    editorMoveCursor { keyCode := .KeyPageUp } cols rows c = { c with y := 0 } ∧
    editorMoveCursor { keyCode := .KeyPageDown } cols rows c = { c with y := rows - 1 } ∧
    (c.x = cols - 1 →
      editorMoveCursor { keyCode := .KeyArrowRight } cols rows c = c) := by
  refine ⟨?_, ?_, ?_, ?_, ?_, fun _ => ?_⟩
  · rintro k (rfl | rfl | rfl | rfl) <;> simp [editorMoveCursor]
  · simp [editorMoveCursor]
  · simp [editorMoveCursor, hc]
  · simp [editorMoveCursor]
  · simp [editorMoveCursor, hr]
  · simp [editorMoveCursor]

/-- Witness for C1's amended statement at geometry 80×25 and cursor (79, 3). -/
theorem editorMoveCursor_jump_policy_witness :
    ((0 : Int) < 80 ∧ (0 : Int) < 25 ∧ (⟨79, 3⟩ : CursorPosition).x = 80 - 1) ∧
      editorMoveCursor { keyCode := .KeyArrowRight } 80 25 ⟨79, 3⟩ = ⟨79, 3⟩ ∧
      editorMoveCursor { keyCode := .KeyEnd } 80 25 ⟨79, 3⟩ =
        { (⟨79, 3⟩ : CursorPosition) with x := 80 - 1 } :=
  ⟨by decide,
   (editorMoveCursor_jump_policy 80 25 ⟨79, 3⟩ (by decide) (by decide)).2.2.2.2.2 (by decide),
   (editorMoveCursor_jump_policy 80 25 ⟨79, 3⟩ (by decide) (by decide)).2.2.1⟩

/-- C3: when both the direct query and the probe fail, `getTerminalSize`
executes `return defaultRows, defaultCols, err` against the signature
`(columns, rows int, err error)`, so it returns columns = 25 and
rows = 80 — the roles are transposed from the claimed 80 columns × 25
rows (the constants `defaultCols = 80`, `defaultRows = 25` show the
intended roles, which the claim states correctly). -/
theorem getTerminalSize_default_transposed :
    getTerminalSize ⟨none, []⟩ = (25, 80, true) ∧
    getTerminalSize ⟨none, [48, 49, 50]⟩ = (25, 80, true) ∧
    getTerminalSize ⟨some (0, 24), []⟩ = (25, 80, true) ∧
    ((25, 80, true) : Int × Int × Bool) ≠ (80, 25, true) := by decide

/-- C2: restoration of the terminal attributes is the deferred
`term.Restore`, and deferred functions do not run when `log.Fatalf` calls
`os.Exit(1)`; so the three fatal paths after raw mode was entered
(file-open failure, geometry failure, refresh-write failure) terminate
with zero `restoreTerminal` effects, while normal quit (Ctrl-Q) and
end-of-stream (channel closed) run it exactly once. -/
theorem restore_skipped_on_fatal_paths :
    (mainRun
      { makeRawOk := true, rawConfigureStdinOk := true, rawConfigureStdoutOk := true,
        fileArg := some false, editorLines := [], frames := [] }).count
      .restoreTerminal = 0 ∧
    (mainRun
      { makeRawOk := true, rawConfigureStdinOk := true, rawConfigureStdoutOk := true,
        fileArg := none, editorLines := [],
        frames := [⟨⟨none, []⟩, true, none⟩] }).count .restoreTerminal = 0 ∧
    (mainRun
      { makeRawOk := true, rawConfigureStdinOk := true, rawConfigureStdoutOk := true,
        fileArg := none, editorLines := [],
        frames := [⟨⟨some (4, 3), []⟩, false, none⟩] }).count .restoreTerminal = 0 ∧
    (mainRun
      { makeRawOk := true, rawConfigureStdinOk := true, rawConfigureStdoutOk := true,
        fileArg := none, editorLines := [],
        frames := [⟨⟨some (4, 3), []⟩, true,
          some { keyCode := .KeyRune, rune := 113, ctrl := true }⟩] }).count
      .restoreTerminal = 1 ∧
    (mainRun
      { makeRawOk := true, rawConfigureStdinOk := true, rawConfigureStdoutOk := true,
        fileArg := none, editorLines := [],
        frames := [⟨⟨some (4, 3), []⟩, true, none⟩] }).count .restoreTerminal = 1 := by
  decide

/-- C4: when both geometry paths fail, `getTerminalSize` does return the
default geometry with a non-nil error, but `main` treats that error as
fatal (`log.Fatalf`), so the run aborts immediately after the
alternate-screen switch — no repaint is written and the next frame is
never processed, contradicting the claim that the loop continues
repainting with the returned geometry. -/
theorem geometry_defaults_abort_loop :
    getTerminalSize ⟨none, []⟩ = (25, 80, true) ∧
    mainRun
      { makeRawOk := true, rawConfigureStdinOk := true, rawConfigureStdoutOk := true,
        fileArg := none, editorLines := [],
        frames := [⟨⟨none, []⟩, true, none⟩,
          ⟨⟨some (4, 3), []⟩, true,
            some { keyCode := .KeyRune, rune := 113, ctrl := true }⟩] } =
      [.write ansiScreenAltOn, .fatalExit] := by decide

/-- C9 counterexample: the claim says the cursor-reposition code reflects
the CursorPosition clamped to the current geometry; `refreshTerminal`
writes `ESC[y+1;x+1H` unclamped, so with the cursor at column 100 in a
3×2 geometry the composed buffer differs from the spec's clamped form. -/
theorem refreshBuffer_unclamped_cex :
    refreshBuffer [] ⟨100, 0⟩ 3 2 ≠ refreshBufferClampedSpec [] ⟨100, 0⟩ 3 2 := by
  decide

/-- C9 amended: each frame is one buffer containing, in order, cursor-hide,
scrollback-clear and cursor-to-home, the row-drawing pass, a
cursor-reposition code reflecting the current CursorPosition taken as-is
(one-based, not clamped — it agrees with the clamped form exactly when the
cursor already lies within the geometry, as hypothesised here), and
cursor-show; the buffer goes out in a single write call. -/
theorem refreshTerminal_single_write_ordered (lines : List String)
    (c : CursorPosition) (cols rows : Int)
    (hx0 : 0 ≤ c.x) (hx : c.x < cols) (hy0 : 0 ≤ c.y) (hy : c.y < rows) :
    refreshTerminal lines c cols rows = [⟨refreshBuffer lines c cols rows⟩] ∧
    (refreshBuffer lines c cols rows).data =
      ansiCursorHide.data ++
        (ansiScrollbackClear.data ++ ansiCursorPositionToHome.data) ++
        (drawRows lines cols rows).data ++
        (ansiCursorPositionMove (c.y + 1) (c.x + 1)).data ++
        ansiCursorShow.data ∧
    refreshBuffer lines c cols rows = refreshBufferClampedSpec lines c cols rows := by
  refine ⟨rfl, ?_, ?_⟩
  · simp [refreshBuffer, String.data_append, List.append_assoc]
  · simp only [refreshBuffer, refreshBufferClampedSpec]
    rw [show max 0 (min c.y (rows - 1)) = c.y by omega,
      show max 0 (min c.x (cols - 1)) = c.x by omega]

/-- Witness for C9's amended statement with one content line, cursor (1, 2),
geometry 4×3. -/
theorem refreshTerminal_single_write_ordered_witness :
    (0 ≤ (⟨1, 2⟩ : CursorPosition).x ∧ (⟨1, 2⟩ : CursorPosition).x < 4 ∧
        0 ≤ (⟨1, 2⟩ : CursorPosition).y ∧ (⟨1, 2⟩ : CursorPosition).y < 3) ∧
      refreshTerminal ["hi"] ⟨1, 2⟩ 4 3 = [⟨refreshBuffer ["hi"] ⟨1, 2⟩ 4 3⟩] ∧
      refreshBuffer ["hi"] ⟨1, 2⟩ 4 3 = refreshBufferClampedSpec ["hi"] ⟨1, 2⟩ 4 3 :=
  ⟨by decide,
   (refreshTerminal_single_write_ordered ["hi"] ⟨1, 2⟩ 4 3 (by decide) (by decide)
      (by decide) (by decide)).1,
   (refreshTerminal_single_write_ordered ["hi"] ⟨1, 2⟩ 4 3 (by decide) (by decide)
      (by decide) (by decide)).2.2⟩

/-- Auxiliary: the digit-accumulation loop returns the pending KeyEsc event
with the stream exhausted when no `~` byte remains. -/
theorem readNumTilde_no_tilde (ds : List Nat) : ∀ num, 126 ∉ ds →
    readNumTilde num ds = (escEvent, []) := by
  induction ds with
  | nil => intro num _; rfl
  | cons c t ih =>
    intro num h
    have hc : ¬ c = 126 := fun hh => h (by simp [hh])
    simp only [readNumTilde, if_neg hc]
    exact ih (num ++ [c]) fun hm => h (List.mem_cons_of_mem _ hm)

/-- Auxiliary: the digit-accumulation loop consumes exactly up to the first
`~` byte and interprets everything accumulated before it. -/
theorem readNumTilde_append (ds : List Nat) : ∀ num tail, 126 ∉ ds →
    readNumTilde num (ds ++ 126 :: tail) = (interpretCsiNumber (num ++ ds), tail) := by
  induction ds with
  | nil => intro num tail _; simp [readNumTilde]
  | cons c t ih =>
    intro num tail h
    have hc : ¬ c = 126 := fun hh => h (by simp [hh])
    simp only [List.cons_append, readNumTilde, if_neg hc, List.append_eq]
    rw [ih (num ++ [c]) tail fun hm => h (List.mem_cons_of_mem _ hm)]
    simp

/-- C6: CSI decoding — a third byte in `{A,B,C,D,H,F}` yields the matching
arrow/Home/End event; a digit third byte enters the accumulation loop,
which gathers bytes up to the first `~` and maps the accumulated string
("1"/"7" Home, "4"/"8" End, "3" Delete, "5" PageUp, "6" PageDown, anything
else Escape); any other third byte, and a stream ending mid-sequence,
yield the KeyEsc event. -/
theorem readKeyBlocking_csi (rest : List Nat) :
    readKeyBlocking (27 :: 91 :: 65 :: rest) = some ({ keyCode := .KeyArrowUp }, rest) ∧
    readKeyBlocking (27 :: 91 :: 66 :: rest) = some ({ keyCode := .KeyArrowDown }, rest) ∧
    readKeyBlocking (27 :: 91 :: 67 :: rest) = some ({ keyCode := .KeyArrowRight }, rest) ∧
    readKeyBlocking (27 :: 91 :: 68 :: rest) = some ({ keyCode := .KeyArrowLeft }, rest) ∧
    readKeyBlocking (27 :: 91 :: 72 :: rest) = some ({ keyCode := .KeyHome }, rest) ∧
    readKeyBlocking (27 :: 91 :: 70 :: rest) = some ({ keyCode := .KeyEnd }, rest) ∧
    (∀ b3, 48 ≤ b3 → b3 ≤ 57 →
      readKeyBlocking (27 :: 91 :: b3 :: rest) = some (readNumTilde [b3] rest)) ∧
    (∀ num ds tail, 126 ∉ ds →
      readNumTilde num (ds ++ 126 :: tail) = (interpretCsiNumber (num ++ ds), tail)) ∧
    (interpretCsiNumber [49] = { keyCode := .KeyHome } ∧
      interpretCsiNumber [55] = { keyCode := .KeyHome } ∧
      interpretCsiNumber [52] = { keyCode := .KeyEnd } ∧
      interpretCsiNumber [56] = { keyCode := .KeyEnd } ∧
      interpretCsiNumber [51] = { keyCode := .KeyDelete } ∧
      interpretCsiNumber [53] = { keyCode := .KeyPageUp } ∧
      interpretCsiNumber [54] = { keyCode := .KeyPageDown }) ∧
    (∀ num, num ≠ [49] → num ≠ [55] → num ≠ [52] → num ≠ [56] → num ≠ [51] →
      num ≠ [53] → num ≠ [54] → interpretCsiNumber num = escEvent) ∧
    (∀ b3, b3 ≠ 65 → b3 ≠ 66 → b3 ≠ 67 → b3 ≠ 68 → b3 ≠ 72 → b3 ≠ 70 →
      ¬(48 ≤ b3 ∧ b3 ≤ 57) →
      readKeyBlocking (27 :: 91 :: b3 :: rest) = some (escEvent, rest)) ∧
    readKeyBlocking [27, 91] = some (escEvent, []) ∧
    (∀ num ds, 126 ∉ ds → readNumTilde num ds = (escEvent, [])) := by
  refine ⟨by simp [readKeyBlocking], by simp [readKeyBlocking], by simp [readKeyBlocking],
    by simp [readKeyBlocking], by simp [readKeyBlocking], by simp [readKeyBlocking],
    ?_, fun num ds tail h => readNumTilde_append ds num tail h, by decide,
    ?_, ?_, by decide, fun num ds h => readNumTilde_no_tilde ds num h⟩
  · intro b3 h48 h57
    have h65 : ¬ b3 = 65 := by omega
    have h66 : ¬ b3 = 66 := by omega
    have h67 : ¬ b3 = 67 := by omega
    have h68 : ¬ b3 = 68 := by omega
    have h72 : ¬ b3 = 72 := by omega
    have h70 : ¬ b3 = 70 := by omega
    simp [readKeyBlocking, h65, h66, h67, h68, h72, h70, h48, h57]
  · intro num h49 h55 h52 h56 h51 h53 h54
    simp [interpretCsiNumber, h49, h55, h52, h56, h51, h53, h54]
  · intro b3 h65 h66 h67 h68 h72 h70 hdig
    simp [readKeyBlocking, h65, h66, h67, h68, h72, h70, hdig]

/-- Witness for C6 at the concrete sequences ESC [ A and ESC [ 5 ~. -/
theorem readKeyBlocking_csi_witness :
    (48 ≤ 53 ∧ 53 ≤ 57) ∧
      readKeyBlocking [27, 91, 65] = some ({ keyCode := .KeyArrowUp }, []) ∧
      readKeyBlocking [27, 91, 53, 126] = some ({ keyCode := .KeyPageUp }, []) := by
  refine ⟨by decide, (readKeyBlocking_csi []).1, ?_⟩
  rw [(readKeyBlocking_csi [126]).2.2.2.2.2.2.1 53 (by decide) (by decide)]
  decide

/-- C10: cursor movement is keyed on the event's rune field — a KeyRune
event whose rune is h (104), j (106), k (107) or l (108) moves the cursor
left, down, up or right, clamped so a cursor starting inside
`[0, cols-1] × [0, rows-1]` stays inside; and the decoder produces exactly
such events both for the plain letters and for the control bytes
8/10/11/12 (Ctrl-h/j/k/l). -/
theorem editorMoveCursor_hjkl (ev : KeyEvent) (cols rows : Int) (c : CursorPosition)
    (hk : ev.keyCode = .KeyRune)
    (hx0 : 0 ≤ c.x) (hx : c.x < cols) (hy0 : 0 ≤ c.y) (hy : c.y < rows) :
    (ev.rune = 104 → editorMoveCursor ev cols rows c = ⟨max (c.x - 1) 0, c.y⟩) ∧
    (ev.rune = 106 → editorMoveCursor ev cols rows c = ⟨c.x, min (c.y + 1) (rows - 1)⟩) ∧
    (ev.rune = 107 → editorMoveCursor ev cols rows c = ⟨c.x, max (c.y - 1) 0⟩) ∧
    (ev.rune = 108 → editorMoveCursor ev cols rows c = ⟨min (c.x + 1) (cols - 1), c.y⟩) ∧
    ((ev.rune = 104 ∨ ev.rune = 106 ∨ ev.rune = 107 ∨ ev.rune = 108) →
      0 ≤ (editorMoveCursor ev cols rows c).x ∧
        (editorMoveCursor ev cols rows c).x < cols ∧
        0 ≤ (editorMoveCursor ev cols rows c).y ∧
        (editorMoveCursor ev cols rows c).y < rows) ∧
    readKeyBlocking [8] = some ({ keyCode := .KeyRune, rune := 104, ctrl := true }, []) ∧
    readKeyBlocking [10] = some ({ keyCode := .KeyRune, rune := 106, ctrl := true }, []) ∧
    readKeyBlocking [11] = some ({ keyCode := .KeyRune, rune := 107, ctrl := true }, []) ∧
    readKeyBlocking [12] = some ({ keyCode := .KeyRune, rune := 108, ctrl := true }, []) ∧
    readKeyBlocking [104] = some ({ keyCode := .KeyRune, rune := 104 }, []) ∧
    readKeyBlocking [106] = some ({ keyCode := .KeyRune, rune := 106 }, []) ∧
    readKeyBlocking [107] = some ({ keyCode := .KeyRune, rune := 107 }, []) ∧
    readKeyBlocking [108] = some ({ keyCode := .KeyRune, rune := 108 }, []) := by
  obtain ⟨cx, cy⟩ := c
  simp only [CursorPosition.mk.injEq] at *
  have e104 : ev.rune = 104 →
      editorMoveCursor ev cols rows ⟨cx, cy⟩ = ⟨max (cx - 1) 0, cy⟩ := by
    intro hr
    simp only [editorMoveCursor, hr, hk]
    split_ifs with h <;> simp <;> omega
  have e106 : ev.rune = 106 →
      editorMoveCursor ev cols rows ⟨cx, cy⟩ = ⟨cx, min (cy + 1) (rows - 1)⟩ := by
    intro hr
    simp only [editorMoveCursor, hr, hk]
    split_ifs with h <;> simp <;> omega
  have e107 : ev.rune = 107 →
      editorMoveCursor ev cols rows ⟨cx, cy⟩ = ⟨cx, max (cy - 1) 0⟩ := by
    intro hr
    simp only [editorMoveCursor, hr, hk]
    split_ifs with h <;> simp <;> omega
  have e108 : ev.rune = 108 →
      editorMoveCursor ev cols rows ⟨cx, cy⟩ = ⟨min (cx + 1) (cols - 1), cy⟩ := by
    intro hr
    simp only [editorMoveCursor, hr, hk]
    split_ifs with h <;> simp <;> omega
  refine ⟨e104, e106, e107, e108, ?_, by decide, by decide, by decide, by decide,
    by decide, by decide, by decide, by decide⟩
  rintro (hr | hr | hr | hr)
  · rw [e104 hr]; refine ⟨?_, ?_, ?_, ?_⟩ <;> simp <;> omega
  · rw [e106 hr]; refine ⟨?_, ?_, ?_, ?_⟩ <;> simp <;> omega
  · rw [e107 hr]; refine ⟨?_, ?_, ?_, ?_⟩ <;> simp <;> omega
  · rw [e108 hr]; refine ⟨?_, ?_, ?_, ?_⟩ <;> simp <;> omega

/-- Auxiliary: `bytes.IndexByte` finds the first occurrence, so on a buffer
that is a clean prefix without the target followed by the target, it
returns the prefix length. -/
theorem indexByte_first_at (l : List Nat) (t : Nat) (r : List Nat)
    (h : ∀ b ∈ l, b ≠ t) : indexByte (l ++ t :: r) t = l.length := by
  induction l with
  | nil => simp [indexByte]
  | cons b l2 ih =>
    have hb : ¬ b = t := h b (List.mem_cons_self b l2)
    have ih2 := ih fun x hx => h x (List.mem_cons_of_mem _ hx)
    simp only [List.cons_append, indexByte, List.append_eq, ih2, if_neg hb]
    rw [if_neg (by omega)]
    simp only [List.length_cons]
    omega

/-- Auxiliary: a run of digits followed by a non-digit splits exactly there. -/
theorem takeDigits_append_stop (ds : List Nat) (c : Nat) (r : List Nat)
    (h : ∀ b ∈ ds, isDigitByte b = true) (hc : isDigitByte c = false) :
    takeDigits (ds ++ c :: r) = (ds, c :: r) := by
  induction ds with
  | nil => simp [takeDigits, hc]
  | cons b t ih =>
    have hb := h b (List.mem_cons_self b t)
    have ih2 := ih fun x hx => h x (List.mem_cons_of_mem _ hx)
    simp [takeDigits, hb, ih2]

/-- Auxiliary: an all-digit buffer is consumed whole. -/
theorem takeDigits_all (ds : List Nat) (h : ∀ b ∈ ds, isDigitByte b = true) :
    takeDigits ds = (ds, []) := by
  induction ds with
  | nil => rfl
  | cons b t ih =>
    have hb := h b (List.mem_cons_self b t)
    have ih2 := ih fun x hx => h x (List.mem_cons_of_mem _ hx)
    simp [takeDigits, hb, ih2]

/-- Auxiliary: a `%d` conversion on a buffer starting with a digit reads the
digit run `takeDigits` finds. -/
theorem scanInt_eq (b : Nat) (t : List Nat) (hd : isDigitByte b = true)
    (ds r : List Nat) (h : takeDigits (b :: t) = (ds, r)) (hne : ds ≠ []) :
    scanInt (b :: t) = some ((digitsToNat ds : Int), r) := by
  have hd2 : 48 ≤ b ∧ b ≤ 57 := by simpa [isDigitByte] using hd
  have h45 : ¬ b = 45 := by omega
  have h43 : ¬ b = 43 := by omega
  obtain ⟨d, ds2, rfl⟩ : ∃ d ds2, ds = d :: ds2 := by
    cases ds with
    | nil => exact absurd rfl hne
    | cons d ds2 => exact ⟨d, ds2, rfl⟩
  simp only [scanInt, if_neg h45, if_neg h43, h]

/-- Auxiliary: `fmt.Sscanf("%d;%d")` on `digits ; digits` yields the two
numbers in wire order. -/
theorem sscanfTwoInts_eq (d1 d2 : List Nat) (h1ne : d1 ≠ []) (h2ne : d2 ≠ [])
    (ha1 : ∀ b ∈ d1, isDigitByte b = true) (ha2 : ∀ b ∈ d2, isDigitByte b = true) :
    sscanfTwoInts (d1 ++ 59 :: d2) =
      some ((digitsToNat d1 : Int), (digitsToNat d2 : Int)) := by
  obtain ⟨b, t, rfl⟩ : ∃ b t, d1 = b :: t := by
    cases d1 with
    | nil => exact absurd rfl h1ne
    | cons b t => exact ⟨b, t, rfl⟩
  obtain ⟨b2, t2, rfl⟩ : ∃ b2 t2, d2 = b2 :: t2 := by
    cases d2 with
    | nil => exact absurd rfl h2ne
    | cons b2 t2 => exact ⟨b2, t2, rfl⟩
  have htd : takeDigits ((b :: t) ++ 59 :: (b2 :: t2)) = (b :: t, 59 :: (b2 :: t2)) :=
    takeDigits_append_stop (b :: t) 59 (b2 :: t2) ha1 (by decide)
  have hs1 : scanInt (b :: (t ++ 59 :: (b2 :: t2))) =
      some ((digitsToNat (b :: t) : Int), 59 :: (b2 :: t2)) :=
    scanInt_eq b (t ++ 59 :: (b2 :: t2)) (ha1 b (List.mem_cons_self b t))
      (b :: t) (59 :: (b2 :: t2)) (by simpa using htd) (by simp)
  have hs2 : scanInt (b2 :: t2) = some ((digitsToNat (b2 :: t2) : Int), []) :=
    scanInt_eq b2 t2 (ha2 b2 (List.mem_cons_self b2 t2)) (b2 :: t2) []
      (takeDigits_all (b2 :: t2) ha2) (by simp)
  simp only [sscanfTwoInts, List.cons_append, hs1, hs2]

/-- C7: parsing the geometry-probe reply `ESC [ rows ; cols R` assigns the
first numeric field to rows and the second to columns, and `getTerminalSize`
returns them in (columns, rows) order when both are strictly positive; a
zero field is rejected (falling through to the default return), as the
closing conjunct shows on the concrete reply `ESC[0;80R`. -/
theorem getTerminalSize_probe_parse (d1 d2 : List Nat) (h1ne : d1 ≠ []) (h2ne : d2 ≠ [])
    (ha1 : ∀ b ∈ d1, isDigitByte b = true) (ha2 : ∀ b ∈ d2, isDigitByte b = true)
    (hpos1 : 0 < digitsToNat d1) (hpos2 : 0 < digitsToNat d2) :
    getTerminalSize ⟨none, 27 :: 91 :: (d1 ++ 59 :: d2 ++ [82])⟩ =
      ((digitsToNat d2 : Int), (digitsToNat d1 : Int), false) ∧
    getTerminalSize ⟨none, [27, 91, 48, 59, 56, 48, 82]⟩ = (25, 80, true) := by
  refine ⟨?_, by decide⟩
  have hesc : indexByte (27 :: 91 :: (d1 ++ 59 :: d2 ++ [82])) 91 = 1 := by
    simp [indexByte]
  have hnot82 : ∀ b ∈ 27 :: 91 :: (d1 ++ 59 :: d2), b ≠ 82 := by
    intro b hb
    simp only [List.mem_cons, List.mem_append] at hb
    rcases hb with rfl | rfl | hb | rfl | hb
    · decide
    · decide
    · have := ha1 b hb
      simp [isDigitByte] at this
      omega
    · decide
    · have := ha2 b hb
      simp [isDigitByte] at this
      omega
  have hR : indexByte (27 :: 91 :: (d1 ++ 59 :: d2 ++ [82])) 82 =
      ((2 + (d1.length + 1 + d2.length) : Nat) : Int) := by
    have h0 : 27 :: 91 :: (d1 ++ 59 :: d2 ++ [82]) =
        (27 :: 91 :: (d1 ++ 59 :: d2)) ++ 82 :: [] := by simp
    rw [h0, indexByte_first_at (27 :: 91 :: (d1 ++ 59 :: d2)) 82 [] hnot82]
    simp only [List.length_cons, List.length_append]
    omega
  have hslice : sliceList (27 :: 91 :: (d1 ++ 59 :: d2 ++ [82])) (1 + 1)
      ((2 + (d1.length + 1 + d2.length) : Nat) : Int) = d1 ++ 59 :: d2 := by
    have h3 : 27 :: 91 :: (d1 ++ 59 :: d2 ++ [82]) =
        (27 :: 91 :: (d1 ++ 59 :: d2)) ++ [82] := by simp
    have h1 : (((2 + (d1.length + 1 + d2.length) : Nat) : Int)).toNat =
        (27 :: 91 :: (d1 ++ 59 :: d2)).length := by
      simp only [List.length_cons, List.length_append]
      omega
    have h2 : ((1 + 1 : Int)).toNat = 2 := by decide
    simp only [sliceList, h1, h2, h3, List.take_left]
    simp
  have hparse := sscanfTwoInts_eq d1 d2 h1ne h2ne ha1 ha2
  have hp1 : (0 : Int) < (digitsToNat d1 : Int) := by exact_mod_cast hpos1
  have hp2 : (0 : Int) < (digitsToNat d2 : Int) := by exact_mod_cast hpos2
  simp only [getTerminalSize, getTerminalSizeFallback, hesc, hR]
  rw [if_pos (show (27 : Nat) :: 91 :: (d1 ++ 59 :: d2 ++ [82]) ≠ [] by simp)]
  rw [if_pos (show (0 : Int) ≤ 1 ∧ (1 : Int) <
    ((2 + (d1.length + 1 + d2.length) : Nat) : Int) by
      constructor
      · omega
      · push_cast
        omega)]
  rw [hslice, hparse]
  simp [hp1, hp2]

/-- Witness for C7 at the concrete reply bytes ESC [ 2 4 ; 8 0 R. -/
theorem getTerminalSize_probe_parse_witness :
    (([50, 52] : List Nat) ≠ [] ∧ ([56, 48] : List Nat) ≠ [] ∧
        0 < digitsToNat [50, 52] ∧ 0 < digitsToNat [56, 48]) ∧
      getTerminalSize ⟨none, [27, 91, 50, 52, 59, 56, 48, 82]⟩ = (80, 24, false) := by
  have h := (getTerminalSize_probe_parse [50, 52] [56, 48] (by decide) (by decide)
    (by decide) (by decide) (by decide) (by decide)).1
  refine ⟨by decide, ?_⟩
  have h2 : (((digitsToNat [56, 48] : Nat) : Int), ((digitsToNat [50, 52] : Nat) : Int),
      false) = ((80 : Int), (24 : Int), false) := by decide
  exact h.trans h2

/-- Auxiliary: the digit-accumulation loop consumes a prefix of its input,
and re-running it on just that prefix produces the same event with nothing
left over. -/
theorem readNumTilde_consumed (s : List Nat) : ∀ num, ∃ k, k ≤ s.length ∧
    (readNumTilde num s).2 = s.drop k ∧
    readNumTilde num (s.take k) = ((readNumTilde num s).1, []) := by
  induction s with
  | nil =>
    intro num
    exact ⟨0, by simp, by simp [readNumTilde], by simp [readNumTilde]⟩
  | cons c t ih =>
    intro num
    by_cases hc : c = 126
    · subst hc
      refine ⟨1, by simp, ?_, ?_⟩
      · simp [readNumTilde]
      · simp [readNumTilde]
    · obtain ⟨k, hk, h2, h1⟩ := ih (num ++ [c])
      refine ⟨k + 1, by simp; omega, ?_, ?_⟩
      · simp only [readNumTilde, if_neg hc, List.drop_succ_cons]
        exact h2
      · simp only [List.take_succ_cons, readNumTilde, if_neg hc]
        exact h1

/-- Auxiliary: on any non-empty stream the decoder yields one event by
consuming a non-empty prefix; the returned remainder is exactly the
unconsumed suffix, and re-running the decoder on just the consumed prefix
yields the same event with nothing left over. -/
theorem readKeyBlocking_cons_spec (b : Nat) (s1 : List Nat) :
    ∃ ev k, 1 ≤ k ∧ k ≤ (b :: s1).length ∧
      readKeyBlocking (b :: s1) = some (ev, (b :: s1).drop k) ∧
      readKeyBlocking ((b :: s1).take k) = some (ev, []) := by
  by_cases h1 : 1 ≤ b ∧ b ≤ 26
  · by_cases h13 : b = 13
    · subst h13
      exact ⟨{ keyCode := .KeyEnter, rune := 13, ctrl := true }, 1, by omega, by simp,
        by simp [readKeyBlocking], by simp [readKeyBlocking]⟩
    · exact ⟨{ keyCode := .KeyRune, rune := 96 + b, ctrl := true }, 1, by omega, by simp,
        by simp [readKeyBlocking, h1, h13], by simp [readKeyBlocking, h1, h13]⟩
  · by_cases h2 : 32 ≤ b ∧ b ≤ 126
    · by_cases h1310 : b = 13 ∨ b = 10
      · exact ⟨{ keyCode := .KeyEnter, rune := 13 }, 1, by omega, by simp,
          by simp [readKeyBlocking, h1, h2, h1310], by simp [readKeyBlocking, h1, h2, h1310]⟩
      · exact ⟨{ keyCode := .KeyRune, rune := b }, 1, by omega, by simp,
          by simp [readKeyBlocking, h1, h2, h1310], by simp [readKeyBlocking, h1, h2, h1310]⟩
    · by_cases h27 : b = 27
      · subst h27
        match s1 with
        | [] =>
          exact ⟨escEvent, 1, by omega, by simp, by simp [readKeyBlocking], by decide⟩
        | b2 :: s2 =>
          by_cases hb2 : b2 = 91
          · subst hb2
            match s2 with
            | [] =>
              exact ⟨escEvent, 2, by omega, by simp, by simp [readKeyBlocking], by decide⟩
            | b3 :: s3 =>
              by_cases h65 : b3 = 65
              · subst h65
                exact ⟨{ keyCode := .KeyArrowUp }, 3, by omega, by simp,
                  by simp [readKeyBlocking], by simp [readKeyBlocking]⟩
              by_cases h66 : b3 = 66
              · subst h66
                exact ⟨{ keyCode := .KeyArrowDown }, 3, by omega, by simp,
                  by simp [readKeyBlocking], by simp [readKeyBlocking]⟩
              by_cases h67 : b3 = 67
              · subst h67
                exact ⟨{ keyCode := .KeyArrowRight }, 3, by omega, by simp,
                  by simp [readKeyBlocking], by simp [readKeyBlocking]⟩
              by_cases h68 : b3 = 68
              · subst h68
                exact ⟨{ keyCode := .KeyArrowLeft }, 3, by omega, by simp,
                  by simp [readKeyBlocking], by simp [readKeyBlocking]⟩
              by_cases h72 : b3 = 72
              · subst h72
                exact ⟨{ keyCode := .KeyHome }, 3, by omega, by simp,
                  by simp [readKeyBlocking], by simp [readKeyBlocking]⟩
              by_cases h70 : b3 = 70
              · subst h70
                exact ⟨{ keyCode := .KeyEnd }, 3, by omega, by simp,
                  by simp [readKeyBlocking], by simp [readKeyBlocking]⟩
              by_cases hdig : 48 ≤ b3 ∧ b3 ≤ 57
              · obtain ⟨k, hk, hdrop, htake⟩ := readNumTilde_consumed s3 [b3]
                rcases hq : readNumTilde [b3] s3 with ⟨e, r⟩
                rw [hq] at hdrop htake
                dsimp only at hdrop htake
                have hrun : readKeyBlocking (27 :: 91 :: b3 :: s3) =
                    some (readNumTilde [b3] s3) := by
                  simp [readKeyBlocking, h65, h66, h67, h68, h72, h70, hdig]
                have hrun2 : readKeyBlocking (27 :: 91 :: b3 :: s3.take k) =
                    some (readNumTilde [b3] (s3.take k)) := by
                  simp [readKeyBlocking, h65, h66, h67, h68, h72, h70, hdig]
                refine ⟨e, k + 1 + 1 + 1, by omega, by simp; omega, ?_, ?_⟩
                · rw [hrun, hq]
                  simp only [List.drop_succ_cons]
                  rw [hdrop]
                · have ht : (27 :: 91 :: b3 :: s3).take (k + 1 + 1 + 1) =
                      27 :: 91 :: b3 :: s3.take k := by simp [List.take_succ_cons]
                  rw [ht, hrun2, htake]
              · exact ⟨escEvent, 3, by omega, by simp,
                  by simp [readKeyBlocking, h65, h66, h67, h68, h72, h70, hdig],
                  by simp [readKeyBlocking, h65, h66, h67, h68, h72, h70, hdig]⟩
          · by_cases hb2O : b2 = 79
            · subst hb2O
              match s2 with
              | [] =>
                exact ⟨escEvent, 2, by omega, by simp, by simp [readKeyBlocking], by decide⟩
              | b3 :: s3 =>
                by_cases h72 : b3 = 72
                · subst h72
                  exact ⟨{ keyCode := .KeyHome }, 3, by omega, by simp,
                    by simp [readKeyBlocking], by simp [readKeyBlocking]⟩
                by_cases h70 : b3 = 70
                · subst h70
                  exact ⟨{ keyCode := .KeyEnd }, 3, by omega, by simp,
                    by simp [readKeyBlocking], by simp [readKeyBlocking]⟩
                exact ⟨escEvent, 3, by omega, by simp,
                  by simp [readKeyBlocking, h72, h70], by simp [readKeyBlocking, h72, h70]⟩
            · exact ⟨escEvent, 2, by omega, by simp,
                by simp [readKeyBlocking, hb2, hb2O], by simp [readKeyBlocking, hb2, hb2O]⟩
      · exact ⟨{ keyCode := .KeyUnknown }, 1, by omega, by simp,
          by simp [readKeyBlocking, h1, h2, h27], by simp [readKeyBlocking, h1, h2, h27]⟩

/-- Auxiliary: the decoder returns nothing exactly when the stream has
already ended before the first read. -/
theorem readKeyBlocking_none_iff (s : List Nat) : readKeyBlocking s = none ↔ s = [] := by
  cases s with
  | nil => simp [readKeyBlocking]
  | cons b s1 =>
    obtain ⟨ev, k, _, _, heq, _⟩ := readKeyBlocking_cons_spec b s1
    simp [heq]

/-- C8: decoding one key event is total on every finite byte stream and
consumes only the prefix it needs: whenever a decode succeeds there is a
consumed prefix length `k ≥ 1` such that the remainder is exactly the
dropped suffix and re-decoding the consumed prefix alone yields the same
event (so no byte beyond the resolving prefix influenced the result), and
the remainder is strictly shorter; a lone 27 with the stream ending after
it yields the KeyEsc event; and the digit-accumulation loop ends with the
KeyEsc event when the stream runs out before a `~` arrives. -/
theorem readKeyBlocking_terminates :
    (∀ s : List Nat, readKeyBlocking s = none ↔ s = []) ∧
    (∀ (s : List Nat) (ev : KeyEvent) (rest : List Nat),
      readKeyBlocking s = some (ev, rest) →
      ∃ k, 1 ≤ k ∧ k ≤ s.length ∧ rest = s.drop k ∧
        readKeyBlocking (s.take k) = some (ev, []) ∧ rest.length < s.length) ∧
    readKeyBlocking [27] = some (escEvent, []) ∧
    (∀ num ds, 126 ∉ ds → readNumTilde num ds = (escEvent, [])) := by
  refine ⟨readKeyBlocking_none_iff, ?_, by decide,
    fun num ds h => readNumTilde_no_tilde ds num h⟩
  intro s ev rest h
  cases s with
  | nil => simp [readKeyBlocking] at h
  | cons b s1 =>
    obtain ⟨ev2, k, hk1, hk2, heq, htake⟩ := readKeyBlocking_cons_spec b s1
    rw [heq] at h
    simp only [Option.some.injEq, Prod.mk.injEq] at h
    obtain ⟨rfl, rfl⟩ := h
    refine ⟨k, hk1, hk2, rfl, htake, ?_⟩
    simp only [List.length_drop]
    simp only [List.length_cons] at hk2 ⊢
    omega

/-- Witness for C8 on the single-byte stream `[104]` (letter h). -/
theorem readKeyBlocking_terminates_witness :
    readKeyBlocking [104] = some ({ keyCode := .KeyRune, rune := 104 }, []) ∧
      ∃ k, 1 ≤ k ∧ k ≤ ([104] : List Nat).length ∧
        ([] : List Nat) = ([104] : List Nat).drop k ∧
        readKeyBlocking (([104] : List Nat).take k) =
          some ({ keyCode := .KeyRune, rune := 104 }, []) ∧
        ([] : List Nat).length < ([104] : List Nat).length :=
  ⟨by decide, readKeyBlocking_terminates.2.1 [104] { keyCode := .KeyRune, rune := 104 } []
    (by decide)⟩

/-- Witness for C10 with a Ctrl-l event at the right edge of an 80×25
terminal: the cursor stays at column 79. -/
theorem editorMoveCursor_hjkl_witness :
    (({ keyCode := .KeyRune, rune := 108, ctrl := true } : KeyEvent).keyCode = .KeyRune ∧
        0 ≤ (⟨79, 5⟩ : CursorPosition).x ∧ (⟨79, 5⟩ : CursorPosition).x < 80 ∧
        0 ≤ (⟨79, 5⟩ : CursorPosition).y ∧ (⟨79, 5⟩ : CursorPosition).y < 25) ∧
      editorMoveCursor { keyCode := .KeyRune, rune := 108, ctrl := true } 80 25 ⟨79, 5⟩ =
        ⟨min (79 + 1) (80 - 1), 5⟩ :=
  ⟨⟨rfl, by decide, by decide, by decide, by decide⟩,
   (editorMoveCursor_hjkl { keyCode := .KeyRune, rune := 108, ctrl := true } 80 25 ⟨79, 5⟩
      rfl (by decide) (by decide) (by decide) (by decide)).2.2.2.1 rfl⟩

end VimGo
